import Mathlib

/-!
Shallow embedding of the kanban ordering engine of
`src/backend/apps/kanban/schema/mutations.py` together with the data model of
`src/backend/apps/kanban/models.py`.

Rows of the database are modelled as lists of records; Django queryset
operations become list operations:
* `filter(...)` becomes `List.filter`;
* `aggregate(Max(col))` becomes `maxAgg` over the projected column
  (`None` on an empty queryset becomes `none`);
* `get(pk=...)` / the `id__in` lookup become `List.find?` / membership tests
  on the primary-key field;
* `order_by("position")` (and the `ordering = ["position"]` model Meta of
  `ChecklistItem`) become a sort on the `position` field;
* `bulk_update(rows, ["position"])` writes the `position` of every collected
  row back into the table, each row identified by its primary key;
* `@transaction.atomic` means a failing batch write leaves the table exactly
  as it was; the persistence collaborator is modelled by a boolean oracle
  `persistOk` deciding whether the batch write commits or raises;
* Python `str.strip()` / `str.startswith("#")` become `pyStrip` /
  `startsWithHash` over the character list of the string.
-/

namespace Kanban

/-- Python `s.strip()`: the string without leading and trailing whitespace
(written structurally over the character list so that it evaluates). -/
def pyStrip (s : String) : String :=
  ⟨((s.data.dropWhile Char.isWhitespace).reverse.dropWhile Char.isWhitespace).reverse⟩

/-- Python `s.startswith("#")`. -/
def startsWithHash (s : String) : Bool :=
  match s.data with
  | [] => false
  | c :: _ => c == '#'

inductive TaskStatus
  | TODO
  | DOING
  | WAITING
  | DONE
deriving DecidableEq, Repr

inductive TaskPriority
  | P1
  | P2
  | P3
  | P4
deriving DecidableEq, Repr

/-- Row of the `Task` model: `title`, `status`, `category`, `priority`,
`order` (`PositiveIntegerField`, hence `Nat`); `id` is the primary key. -/
structure Task where
  id : Nat
  title : String
  status : TaskStatus
  category : String
  priority : TaskPriority
  order : Nat
deriving DecidableEq, Repr

/-- Row of the `Checklist` model: `title` and the `task` foreign key. -/
structure Checklist where
  id : Nat
  taskId : Nat
  title : String
deriving DecidableEq, Repr

/-- Row of the `ChecklistItem` model: `text`, `completed`, `position`
(0-indexed integer ordering field) and the `checklist` foreign key. -/
structure ChecklistItem where
  id : Nat
  checklistId : Nat
  text : String
  position : Nat
  completed : Bool
deriving DecidableEq, Repr

/-- The three tables the mutations touch. -/
structure KanbanState where
  tasks : List Task
  checklists : List Checklist
  items : List ChecklistItem
deriving DecidableEq, Repr

/-- Django `aggregate(models.Max(col))`: `none` when the queryset is empty,
otherwise the maximum of the column. -/
def maxAgg : List Nat → Option Nat
  | [] => none
  | p :: ps => some ((maxAgg ps).elim p (fun m => max p m))

/-- `CreateTask.mutate`: `order_value = (max_order or 0) + 1`.  Python `or`
treats both `None` and `0` as falsy, so an empty bucket and a bucket whose
maximum order is `0` both yield `0 + 1 = 1`. -/
def autoOrder (maxOrder : Option Nat) : Nat :=
  match maxOrder with
  | none => 1
  | some 0 => 1
  | some m => m + 1

/-- `AddChecklistItem.mutate`: `position = (max_position or -1) + 1`.  Python
`or` treats both `None` and `0` as falsy, so an empty checklist and a
checklist whose maximum position is `0` both yield `-1 + 1 = 0`. -/
def autoPosition (maxPosition : Option Nat) : Nat :=
  match maxPosition with
  | none => 0
  | some 0 => 0
  | some m => m + 1

/-- The dict comprehension
`id_to_position = \x7bstr(item_id): idx for idx, item_id in enumerate(item_ids)\x7d`
of `ReorderChecklistItems.mutate`: maps an id to its index in `itemIds`,
a later occurrence overwriting an earlier one (dict assignment order). -/
def idToPosition : List Nat → Nat → Option Nat
  | [], _ => none
  | y :: ys, x =>
    match idToPosition ys x with
    | some j => some (j + 1)
    | none => if y = x then some 0 else none

/-- The dict lookup `id_to_position[str(item.id)]`; on the code path where it
is evaluated the key is always present, so the default is never used. -/
def newPositionOf (itemIds : List Nat) (i : Nat) : Nat :=
  (idToPosition itemIds i).getD 0

/-- The comparison `order_by("position")` sorts by. -/
def posLe (a b : ChecklistItem) : Prop :=
  a.position ≤ b.position

instance : DecidableRel posLe :=
  fun a b => inferInstanceAs (Decidable (a.position ≤ b.position))

instance : IsTotal ChecklistItem posLe :=
  ⟨fun a b => Nat.le_total a.position b.position⟩

instance : IsTrans ChecklistItem posLe :=
  ⟨fun _ _ _ hab hbc => Nat.le_trans hab hbc⟩

/-- `order_by("position")` (also the `ordering = ["position"]` model Meta). -/
def orderByPosition (l : List ChecklistItem) : List ChecklistItem :=
  l.insertionSort posLe

/-- GraphQL payload of `CreateTask`, plus the resulting table state. -/
structure CreateTaskReturn where
  state : KanbanState
  task : Option Task
  errors : List String
deriving DecidableEq, Repr

/-- GraphQL payload of `AddChecklistItem`, plus the resulting table state. -/
structure AddItemReturn where
  state : KanbanState
  item : Option ChecklistItem
  errors : List String
deriving DecidableEq, Repr

/-- GraphQL payload of `ToggleChecklistItem`, plus the resulting table state. -/
structure ToggleReturn where
  state : KanbanState
  item : Option ChecklistItem
  errors : List String
deriving DecidableEq, Repr

/-- Observable outcome of `ReorderChecklistItems.mutate`: the two structured
error payloads of the `errors` list, a propagated storage exception (rolled
back by `@transaction.atomic`), or the success payload (`items` ordered by
position, plus the owning checklist). -/
inductive ReorderOutcome
  | notFound (msg : String)
  | validationError (msg : String)
  | persistenceFailure
  | success (items : List ChecklistItem) (checklist : Checklist)
deriving DecidableEq, Repr

/-- Result of `ReorderChecklistItems.mutate`: resulting table state, outcome,
and the `items_to_update` batch handed to `bulk_update` (`[]` on paths where
the batch is never built). -/
structure ReorderReturn where
  state : KanbanState
  outcome : ReorderOutcome
  batch : List ChecklistItem
deriving DecidableEq, Repr

/-- Is the outcome the success payload? -/
def ReorderOutcome.isSuccess : ReorderOutcome → Bool
  | .success _ _ => true
  | _ => false

/-- Is the outcome the validation-error payload? -/
def ReorderOutcome.isValidationError : ReorderOutcome → Bool
  | .validationError _ => true
  | _ => false

/-- `CreateTask.mutate` of `schema/mutations.py`.  `newId` is the primary key
the store assigns to the created row. -/
def createTask (s : KanbanState) (newId : Nat) (title : String)
    (status : Option TaskStatus) (category : Option String)
    (priority : Option TaskPriority) (order : Option Nat) : CreateTaskReturn :=
  if pyStrip title = "" then
    { state := s, task := none, errors := ["Title cannot be empty"] }
  else
    let statusValue := status.getD TaskStatus.TODO
    let priorityValue := priority.getD TaskPriority.P4
    let categoryValue :=
      match category with
      | none => ""
      | some c => if c = "" then "" else if startsWithHash c then c else "#" ++ c
    let orderValue :=
      match order with
      | some o => o
      | none =>
          autoOrder (maxAgg ((s.tasks.filter
            (fun t => decide (t.status = statusValue ∧ t.priority = priorityValue))).map
              Task.order))
    let task : Task :=
      { id := newId, title := pyStrip title, status := statusValue,
        category := categoryValue, priority := priorityValue, order := orderValue }
    { state := { s with tasks := s.tasks ++ [task] }, task := some task, errors := [] }

/-- `AddChecklistItem.mutate` of `schema/mutations.py`. -/
def addChecklistItem (s : KanbanState) (newId : Nat) (checklistId : Nat)
    (text : String) (position : Option Nat) : AddItemReturn :=
  match s.checklists.find? (fun c => c.id == checklistId) with
  | none =>
      { state := s, item := none,
        errors := ["Checklist " ++ toString checklistId ++ " not found"] }
  | some _ =>
      if pyStrip text = "" then
        { state := s, item := none, errors := ["Item text cannot be empty"] }
      else
        let pos :=
          match position with
          | some p => p
          | none =>
              autoPosition (maxAgg ((s.items.filter
                (fun it => it.checklistId == checklistId)).map ChecklistItem.position))
        let item : ChecklistItem :=
          { id := newId, checklistId := checklistId, text := pyStrip text,
            position := pos, completed := false }
        { state := { s with items := s.items ++ [item] },
          item := some item, errors := [] }

/-- `ToggleChecklistItem.mutate`: negate `completed` and save only that field
back to the row with this primary key. -/
def toggleChecklistItem (s : KanbanState) (itemId : Nat) : ToggleReturn :=
  match s.items.find? (fun it => it.id == itemId) with
  | none =>
      { state := s, item := none,
        errors := ["Item " ++ toString itemId ++ " not found"] }
  | some item =>
      let item2 := { item with completed := !item.completed }
      { state := { s with items := s.items.map (fun j =>
          if j.id == itemId then { j with completed := item2.completed } else j) },
        item := some item2, errors := [] }

/-- The queryset `ChecklistItem.objects.filter(id__in=item_ids,
checklist=checklist)` of `ReorderChecklistItems.mutate`, again ordered by the
model Meta ordering on `position`. -/
def resolvedItems (s : KanbanState) (checklistId : Nat)
    (itemIds : List Nat) : List ChecklistItem :=
  orderByPosition (s.items.filter
    (fun it => itemIds.contains it.id && it.checklistId == checklistId))

/-- The `items_to_update` batch of `ReorderChecklistItems.mutate`: the
resolved items whose stored position differs from their index in `itemIds`,
carrying their new position. -/
def itemsToUpdate (s : KanbanState) (checklistId : Nat)
    (itemIds : List Nat) : List ChecklistItem :=
  (resolvedItems s checklistId itemIds).filterMap (fun it =>
    let np := newPositionOf itemIds it.id
    if it.position ≠ np then some { it with position := np } else none)

/-- One row under `bulk_update(items_to_update, ["position"])`: if the batch
holds a row with this primary key, its `position` is written, otherwise the
row is untouched. -/
def bulkUpdateRow (batch : List ChecklistItem) (j : ChecklistItem) :
    ChecklistItem :=
  match batch.find? (fun u => u.id == j.id) with
  | some u => { j with position := u.position }
  | none => j

/-- `bulk_update(items_to_update, ["position"])`: write the `position` of
every batched row back into the table, each row identified by its primary
key. -/
def bulkUpdate (batch : List ChecklistItem) (table : List ChecklistItem) :
    List ChecklistItem :=
  table.map (bulkUpdateRow batch)

/-- `ReorderChecklistItems.mutate` of `schema/mutations.py`.  `persistOk`
is the persistence oracle: when the batch write raises, `@transaction.atomic`
rolls the table back and the failure propagates. -/
def reorderChecklistItems (s : KanbanState) (checklistId : Nat)
    (itemIds : List Nat) (persistOk : Bool) : ReorderReturn :=
  match s.checklists.find? (fun c => c.id == checklistId) with
  | none =>
      { state := s,
        outcome := .notFound ("Checklist " ++ toString checklistId ++ " not found"),
        batch := [] }
  | some checklist =>
      if (resolvedItems s checklistId itemIds).length ≠ itemIds.length then
        { state := s,
          outcome := .validationError "All items must belong to the specified checklist",
          batch := [] }
      else if (itemsToUpdate s checklistId itemIds).isEmpty then
        { state := s,
          outcome := .success (orderByPosition (s.items.filter
            (fun it => it.checklistId == checklistId))) checklist,
          batch := itemsToUpdate s checklistId itemIds }
      else if persistOk then
        { state := { s with
            items := bulkUpdate (itemsToUpdate s checklistId itemIds) s.items },
          outcome := .success (orderByPosition
            ((bulkUpdate (itemsToUpdate s checklistId itemIds) s.items).filter
              (fun it => it.checklistId == checklistId))) checklist,
          batch := itemsToUpdate s checklistId itemIds }
      else
        { state := s, outcome := .persistenceFailure,
          batch := itemsToUpdate s checklistId itemIds }

/-- Primary keys are unique: no two rows of the item table share an `id`
and no two rows of the checklist table share an `id`. -/
def WF (s : KanbanState) : Prop :=
  (s.items.map ChecklistItem.id).Nodup ∧ (s.checklists.map Checklist.id).Nodup

/-- Concrete checklist used by the concrete-instance theorems. -/
def exChecklist : Checklist := { id := 1, taskId := 7, title := "cl" }

/-- Concrete state: one checklist with three items at positions 0, 1, 2. -/
def exState : KanbanState :=
  { tasks := []
    checklists := [exChecklist]
    items :=
      [ { id := 11, checklistId := 1, text := "a", position := 0, completed := false }
      , { id := 12, checklistId := 1, text := "b", position := 1, completed := false }
      , { id := 13, checklistId := 1, text := "c", position := 2, completed := false } ] }

/-- Concrete state: one checklist with two items at positions 0 and 1. -/
def pairState : KanbanState :=
  { tasks := []
    checklists := [exChecklist]
    items :=
      [ { id := 21, checklistId := 1, text := "a", position := 0, completed := false }
      , { id := 22, checklistId := 1, text := "b", position := 1, completed := false } ] }

/-- Concrete state: one checklist with a single item at position 0. -/
def singleZeroState : KanbanState :=
  { tasks := []
    checklists := [exChecklist]
    items :=
      [ { id := 31, checklistId := 1, text := "a", position := 0, completed := false } ] }

/-- Concrete state with empty tables. -/
def emptyState : KanbanState := { tasks := [], checklists := [], items := [] }

/-- Row-level description of a successful reorder: a row of the group listed
in `itemIds` carries its index in `itemIds` as position, any other row is
untouched. -/
def applyRow (cid : Nat) (S : List Nat) (j : ChecklistItem) : ChecklistItem :=
  if S.contains j.id && j.checklistId == cid then
    { j with position := newPositionOf S j.id }
  else j

/-- Pointwise description of a successful reorder over the whole table. -/
def applyNewPositions (s : KanbanState) (cid : Nat) (S : List Nat) :
    List ChecklistItem :=
  s.items.map (applyRow cid S)

theorem idToPosition_of_not_mem {l : List Nat} {x : Nat} (h : x ∉ l) :
    idToPosition l x = none := by
  induction l with
  | nil => rfl
  | cons y ys ih =>
    have hxy : ¬ (y = x) := fun he => h (he ▸ List.mem_cons_self y ys)
    have hxs : x ∉ ys := fun hm => h (List.mem_cons_of_mem y hm)
    simp [idToPosition, ih hxs, hxy]

theorem idToPosition_get {l : List Nat} (hl : l.Nodup) (i : Nat)
    (hi : i < l.length) : idToPosition l (l.get ⟨i, hi⟩) = some i := by
  induction l generalizing i with
  | nil => exact absurd hi (Nat.not_lt_zero i)
  | cons y ys ih =>
    obtain ⟨hy, hys⟩ := List.nodup_cons.mp hl
    cases i with
    | zero =>
      simp [List.get, idToPosition, idToPosition_of_not_mem hy]
    | succ j =>
      have hj : j < ys.length := Nat.lt_of_succ_lt_succ hi
      have ih2 := ih hys j hj
      rw [List.get_eq_getElem] at ih2
      simp [List.get, idToPosition, ih2]

theorem idToPosition_some_get {l : List Nat} {x j : Nat}
    (h : idToPosition l x = some j) :
    ∃ hj : j < l.length, l.get ⟨j, hj⟩ = x := by
  induction l generalizing j with
  | nil => exact absurd h (by simp [idToPosition])
  | cons y ys ih =>
    rw [idToPosition] at h
    cases hys : idToPosition ys x with
    | some k =>
      rw [hys] at h
      obtain rfl : k + 1 = j := Option.some.inj h
      obtain ⟨hk, hgk⟩ := ih hys
      exact ⟨Nat.succ_lt_succ hk, hgk⟩
    | none =>
      rw [hys] at h
      by_cases hxy : y = x
      · simp only [hxy, if_pos rfl] at h
        obtain rfl : (0 : Nat) = j := Option.some.inj h
        exact ⟨Nat.succ_pos _, hxy⟩
      · simp [hxy] at h

theorem maxAgg_eq_none {l : List Nat} : maxAgg l = none ↔ l = [] := by
  cases l <;> simp [maxAgg]

theorem maxAgg_spec {l : List Nat} {m : Nat} (h : maxAgg l = some m) :
    m ∈ l ∧ ∀ x ∈ l, x ≤ m := by
  induction l generalizing m with
  | nil => exact absurd h (by simp [maxAgg])
  | cons p ps ih =>
    cases hps : maxAgg ps with
    | none =>
      have hnil : ps = [] := maxAgg_eq_none.mp hps
      subst hnil
      simp [maxAgg] at h
      subst h
      simp
    | some k =>
      obtain ⟨hk, hbound⟩ := ih hps
      simp only [maxAgg, hps, Option.elim] at h
      obtain rfl := Option.some.inj h
      constructor
      · rcases max_choice p k with hmx | hmx <;> rw [hmx]
        · exact List.mem_cons_self _ _
        · exact List.mem_cons_of_mem _ hk
      · intro x hx
        rcases List.mem_cons.mp hx with rfl | hx2
        · exact le_max_left _ _
        · exact le_trans (hbound x hx2) (le_max_right _ _)

theorem maxAgg_eq_of_isMax {l : List Nat} {m : Nat} (hm : m ∈ l)
    (hb : ∀ x ∈ l, x ≤ m) : maxAgg l = some m := by
  cases hml : maxAgg l with
  | none =>
    rw [maxAgg_eq_none] at hml
    subst hml
    exact absurd hm (List.not_mem_nil m)
  | some k =>
    obtain ⟨hk, hkb⟩ := maxAgg_spec hml
    rw [Nat.le_antisymm (hkb m hm) (hb k hk)]

theorem eq_of_id_eq {l : List ChecklistItem}
    (h : (l.map ChecklistItem.id).Nodup) {a b : ChecklistItem}
    (ha : a ∈ l) (hb : b ∈ l) (hid : a.id = b.id) : a = b :=
  List.inj_on_of_nodup_map h ha hb hid

theorem find?_eq_some_of_unique {α : Type} (pr : α → Bool) {l : List α} {x : α}
    (hx : x ∈ l) (hpx : pr x = true)
    (huniq : ∀ y ∈ l, pr y = true → y = x) : l.find? pr = some x := by
  induction l with
  | nil => exact absurd hx (List.not_mem_nil x)
  | cons a as ih =>
    by_cases hpa : pr a = true
    · rw [List.find?_cons_of_pos _ hpa, huniq a (List.mem_cons_self a as) hpa]
    · have hx2 : x ∈ as := by
        rcases List.mem_cons.mp hx with rfl | hx2
        · exact absurd hpx hpa
        · exact hx2
      rw [List.find?_cons_of_neg _ (by simpa using hpa)]
      exact ih hx2 (fun y hy hpy => huniq y (List.mem_cons_of_mem a hy) hpy)

theorem mem_orderByPosition {l : List ChecklistItem} {x : ChecklistItem} :
    x ∈ orderByPosition l ↔ x ∈ l :=
  List.mem_insertionSort posLe

theorem orderByPosition_perm (l : List ChecklistItem) :
    List.Perm (orderByPosition l) l :=
  List.perm_insertionSort posLe l

theorem orderByPosition_length (l : List ChecklistItem) :
    (orderByPosition l).length = l.length :=
  (orderByPosition_perm l).length_eq

theorem orderByPosition_sorted (l : List ChecklistItem) :
    List.Sorted posLe (orderByPosition l) :=
  List.sorted_insertionSort posLe l

theorem mem_resolvedItems {s : KanbanState} {cid : Nat} {S : List Nat}
    {it : ChecklistItem} :
    it ∈ resolvedItems s cid S ↔
      it ∈ s.items ∧ it.id ∈ S ∧ it.checklistId = cid := by
  rw [resolvedItems, mem_orderByPosition, List.mem_filter]
  simp [List.contains]

theorem resolvedItems_length (s : KanbanState) (cid : Nat) (S : List Nat) :
    (resolvedItems s cid S).length =
      (s.items.filter
        (fun it => S.contains it.id && it.checklistId == cid)).length :=
  orderByPosition_length _

theorem mem_itemsToUpdate {s : KanbanState} {cid : Nat} {S : List Nat}
    {u : ChecklistItem} :
    u ∈ itemsToUpdate s cid S ↔
      ∃ it, it ∈ resolvedItems s cid S ∧ it.position ≠ newPositionOf S it.id ∧
        u = { it with position := newPositionOf S it.id } := by
  rw [itemsToUpdate, List.mem_filterMap]
  constructor
  · rintro ⟨a, ha, hfa⟩
    by_cases hne : a.position ≠ newPositionOf S a.id
    · rw [if_pos hne] at hfa
      exact ⟨a, ha, hne, (Option.some.inj hfa).symm⟩
    · rw [if_neg hne] at hfa
      exact absurd hfa (Option.noConfusion)
  · rintro ⟨a, ha, hne, rfl⟩
    exact ⟨a, ha, by rw [if_pos hne]⟩

theorem resolvedItems_length_of_resolve {s : KanbanState} {cid : Nat}
    {S : List Nat} (hWF : WF s) (hS : S.Nodup)
    (hres : ∀ x ∈ S, ∃ it ∈ s.items, it.id = x ∧ it.checklistId = cid) :
    (resolvedItems s cid S).length = S.length := by
  rw [resolvedItems_length]
  have hsub : List.Sublist (s.items.filter
      (fun it => S.contains it.id && it.checklistId == cid)) s.items :=
    List.filter_sublist _
  have hidnd : ((s.items.filter
      (fun it => S.contains it.id && it.checklistId == cid)).map
        ChecklistItem.id).Nodup :=
    (hWF.1).sublist (hsub.map _)
  have hmem : ∀ x, x ∈ (s.items.filter
      (fun it => S.contains it.id && it.checklistId == cid)).map
        ChecklistItem.id ↔ x ∈ S := by
    intro x
    constructor
    · intro hx
      obtain ⟨it, hit, rfl⟩ := List.mem_map.mp hx
      have h2 := (List.mem_filter.mp hit).2
      simp [List.contains] at h2
      exact h2.1
    · intro hx
      obtain ⟨it, hit, hid, hcl⟩ := hres x hx
      refine List.mem_map.mpr ⟨it, List.mem_filter.mpr ⟨hit, ?_⟩, hid⟩
      simp [List.contains, hid, hcl, hx]
  have hperm : List.Perm ((s.items.filter
      (fun it => S.contains it.id && it.checklistId == cid)).map
        ChecklistItem.id) S := by
    refine List.perm_of_nodup_nodup_toFinset_eq hidnd hS ?_
    ext x
    simp only [List.mem_toFinset]
    exact hmem x
  calc (s.items.filter
      (fun it => S.contains it.id && it.checklistId == cid)).length
      = ((s.items.filter
          (fun it => S.contains it.id && it.checklistId == cid)).map
            ChecklistItem.id).length := (List.length_map _ _).symm
    _ = S.length := hperm.length_eq

theorem contains_iff {S : List Nat} {x : Nat} : S.contains x = true ↔ x ∈ S := by
  simp [List.contains]

theorem applyRow_id (cid : Nat) (S : List Nat) (j : ChecklistItem) :
    (applyRow cid S j).id = j.id := by
  unfold applyRow
  by_cases h : (S.contains j.id && j.checklistId == cid) = true
  · rw [if_pos h]
  · rw [if_neg h]

theorem applyRow_checklistId (cid : Nat) (S : List Nat) (j : ChecklistItem) :
    (applyRow cid S j).checklistId = j.checklistId := by
  unfold applyRow
  by_cases h : (S.contains j.id && j.checklistId == cid) = true
  · rw [if_pos h]
  · rw [if_neg h]

theorem applyRow_of_not_mem {cid : Nat} {S : List Nat} {j : ChecklistItem}
    (h : j.id ∉ S) : applyRow cid S j = j := by
  unfold applyRow
  have hcond : ¬ ((S.contains j.id && j.checklistId == cid) = true) := by
    intro hc
    rw [Bool.and_eq_true] at hc
    exact h (contains_iff.mp hc.1)
  rw [if_neg hcond]

theorem applyRow_position_of_mem {cid : Nat} {S : List Nat} {j : ChecklistItem}
    (hid : j.id ∈ S) (hcl : j.checklistId = cid) :
    (applyRow cid S j).position = newPositionOf S j.id := by
  unfold applyRow
  rw [if_pos (by simp [List.contains, hid, hcl])]

theorem batch_find?_of_qualifies {s : KanbanState} {cid : Nat} {S : List Nat}
    (hWF : WF s) {j : ChecklistItem} (hj : j ∈ s.items)
    (hid : j.id ∈ S) (hcl : j.checklistId = cid)
    (hne : j.position ≠ newPositionOf S j.id) :
    (itemsToUpdate s cid S).find? (fun u => u.id == j.id) =
      some { j with position := newPositionOf S j.id } := by
  apply find?_eq_some_of_unique
  · exact mem_itemsToUpdate.mpr ⟨j, mem_resolvedItems.mpr ⟨hj, hid, hcl⟩, hne, rfl⟩
  · simp
  · intro y hy hpy
    obtain ⟨a, haR, hane, rfl⟩ := mem_itemsToUpdate.mp hy
    have haid : a.id = j.id := by simpa using hpy
    have ha : a ∈ s.items := (mem_resolvedItems.mp haR).1
    have haj : a = j := eq_of_id_eq hWF.1 ha hj haid
    subst haj
    rfl

theorem batch_find?_of_not_qualifies {s : KanbanState} {cid : Nat}
    {S : List Nat} (hWF : WF s) {j : ChecklistItem} (hj : j ∈ s.items)
    (hnq : ¬ (j.id ∈ S ∧ j.checklistId = cid ∧
      j.position ≠ newPositionOf S j.id)) :
    (itemsToUpdate s cid S).find? (fun u => u.id == j.id) = none := by
  rw [List.find?_eq_none]
  intro u hu hbeq
  obtain ⟨a, haR, hane, rfl⟩ := mem_itemsToUpdate.mp hu
  obtain ⟨ha, haid, hacl⟩ := mem_resolvedItems.mp haR
  have haj : a = j := eq_of_id_eq hWF.1 ha hj (by simpa using hbeq)
  subst haj
  exact hnq ⟨haid, hacl, hane⟩

theorem bulkUpdate_eq_applyNewPositions {s : KanbanState} {cid : Nat}
    {S : List Nat} (hWF : WF s) :
    bulkUpdate (itemsToUpdate s cid S) s.items = applyNewPositions s cid S := by
  unfold bulkUpdate applyNewPositions
  apply List.map_congr_left
  intro j hj
  unfold bulkUpdateRow
  by_cases hq : j.id ∈ S ∧ j.checklistId = cid
  · have hcond : (S.contains j.id && j.checklistId == cid) = true := by
      simp [List.contains, hq.1, hq.2]
    by_cases hne : j.position = newPositionOf S j.id
    · rw [batch_find?_of_not_qualifies hWF hj
        (fun hc => hc.2.2 hne)]
      simp [applyRow, hcond, ← hne]
    · rw [batch_find?_of_qualifies hWF hj hq.1 hq.2 hne]
      simp [applyRow, hcond]
      rw [if_pos hq]
  · rw [batch_find?_of_not_qualifies hWF hj (fun hc => hq ⟨hc.1, hc.2.1⟩)]
    simp [applyRow]
    rw [if_neg hq]

theorem applyNewPositions_of_batch_empty {s : KanbanState} {cid : Nat}
    {S : List Nat} (hemp : itemsToUpdate s cid S = []) :
    applyNewPositions s cid S = s.items := by
  unfold applyNewPositions
  have hid : ∀ j ∈ s.items, applyRow cid S j = id j := by
    intro j hj
    unfold applyRow
    by_cases hcond : (S.contains j.id && j.checklistId == cid) = true
    · rw [if_pos hcond]
      by_cases hne : j.position = newPositionOf S j.id
      · simp [id, ← hne]
      · exfalso
        have hcond2 := hcond
        simp only [Bool.and_eq_true, List.contains, beq_iff_eq] at hcond2
        have hmem : ({ j with position := newPositionOf S j.id }) ∈
            itemsToUpdate s cid S :=
          mem_itemsToUpdate.mpr ⟨j,
            mem_resolvedItems.mpr ⟨hj, by simpa using hcond2.1, hcond2.2⟩,
            hne, rfl⟩
        rw [hemp] at hmem
        exact List.not_mem_nil _ hmem
    · rw [if_neg hcond]
      rfl
  rw [List.map_congr_left hid, List.map_id]

theorem reorder_success_eq {s : KanbanState} {cid : Nat} {S : List Nat}
    {cl : Checklist} (hWF : WF s)
    (hfind : s.checklists.find? (fun c => c.id == cid) = some cl)
    (hlen : (resolvedItems s cid S).length = S.length) :
    reorderChecklistItems s cid S true =
      { state := { s with items := applyNewPositions s cid S },
        outcome := .success (orderByPosition ((applyNewPositions s cid S).filter
          (fun it => it.checklistId == cid))) cl,
        batch := itemsToUpdate s cid S } := by
  simp only [reorderChecklistItems, hfind]
  rw [if_neg (fun hne => hne hlen)]
  cases hemp : (itemsToUpdate s cid S).isEmpty with
  | true =>
    rw [if_pos rfl]
    have hnil : itemsToUpdate s cid S = [] := by
      simpa [List.isEmpty_iff] using hemp
    have happ := applyNewPositions_of_batch_empty hnil
    rw [happ]
  | false =>
    rw [if_pos trivial]
    rw [bulkUpdate_eq_applyNewPositions hWF]
    rw [if_neg (fun hcc => Bool.noConfusion hcc)]

/-- C1: for every checklist G of the store and every list S of item ids that
all resolve to distinct existing items of G, `Reorder(G, S)` succeeds, sets
the stored position of the item with id `S[i]` to `i` for every index `i`,
and leaves every stored item whose id is not listed in S (in particular
every item of G not listed in S) completely unchanged. -/
theorem C1_reorder_assigns_indices_and_frames_rest
    (s : KanbanState) (cid : Nat) (S : List Nat)
    (hWF : WF s)
    (hcl : ∃ c ∈ s.checklists, c.id = cid)
    (hS : S.Nodup)
    (hres : ∀ x ∈ S, ∃ it ∈ s.items, it.id = x ∧ it.checklistId = cid) :
    (reorderChecklistItems s cid S true).outcome.isSuccess = true ∧
    (reorderChecklistItems s cid S true).state.items.length = s.items.length ∧
    (∀ i (hi : i < S.length),
      ∀ it ∈ (reorderChecklistItems s cid S true).state.items,
        it.id = S.get ⟨i, hi⟩ → it.position = i) ∧
    (∀ k (hk : k < s.items.length)
        (hk2 : k < (reorderChecklistItems s cid S true).state.items.length),
      (s.items.get ⟨k, hk⟩).id ∉ S →
        (reorderChecklistItems s cid S true).state.items.get ⟨k, hk2⟩ =
          s.items.get ⟨k, hk⟩) := by
  obtain ⟨cl, hclmem, hcleq⟩ := hcl
  have hsome : (s.checklists.find? (fun c => c.id == cid)).isSome := by
    rw [List.find?_isSome]
    exact ⟨cl, hclmem, by simp [hcleq]⟩
  obtain ⟨cl0, hfind⟩ := Option.isSome_iff_exists.mp hsome
  have hlen := resolvedItems_length_of_resolve hWF hS hres
  rw [reorder_success_eq hWF hfind hlen]
  refine ⟨rfl, by simp [applyNewPositions], ?_, ?_⟩
  · intro i hi it hit hid
    obtain ⟨j, hj, rfl⟩ := List.mem_map.mp hit
    rw [applyRow_id] at hid
    have hmemS : S.get ⟨i, hi⟩ ∈ S := S.get_mem _ _
    obtain ⟨it0, hit0, hit0id, hit0cl⟩ := hres _ hmemS
    have hji : j = it0 := eq_of_id_eq hWF.1 hj hit0 (by rw [hid, hit0id])
    have hjS : j.id ∈ S := by rw [hid]; exact hmemS
    have hjcl : j.checklistId = cid := by rw [hji]; exact hit0cl
    rw [applyRow_position_of_mem hjS hjcl, newPositionOf, hid,
      idToPosition_get hS i hi]
    rfl
  · intro k hk hk2 hnot
    have hget : (applyNewPositions s cid S).get ⟨k, hk2⟩ =
        applyRow cid S (s.items.get ⟨k, hk⟩) := by
      rw [List.get_eq_getElem, List.get_eq_getElem]
      simp [applyNewPositions]
    rw [hget, applyRow_of_not_mem hnot]

/-- Witness for C1: a concrete three-item checklist reversed by a reorder. -/
theorem C1_witness :
    (reorderChecklistItems exState 1 [13, 11, 12] true).outcome.isSuccess = true ∧
    (reorderChecklistItems exState 1 [13, 11, 12] true).state.items.map
      (fun it => (it.id, it.position)) = [(11, 1), (12, 2), (13, 0)] := by
  have h := C1_reorder_assigns_indices_and_frames_rest exState 1 [13, 11, 12]
    (by constructor <;> decide)
    ⟨exChecklist, by decide, by decide⟩
    (by decide)
    (by decide)
  exact ⟨h.1, by decide⟩

/-- Counterexample to C2 as stated: reordering the proper subset `[22]` of a
two-item checklist succeeds, yet afterwards two items of the checklist share
position 0 (the item moved to index 0 collides with the unlisted item that
already sat at position 0). -/
theorem C2_counterexample :
    (reorderChecklistItems pairState 1 [22] true).outcome.isSuccess = true ∧
    ¬ ((reorderChecklistItems pairState 1 [22] true).state.items.filter
        (fun it => it.checklistId == 1)).Pairwise
      (fun a b => a.position ≠ b.position) := by
  constructor
  · decide
  · decide

/-- C2 amended: after a successful `Reorder(G, S)` in which `S` lists the ids
of all items of G (the full-group reorder the API performs), no two items of
G share a stored position.  (As stated the claim fails when S is a proper
subset: an unlisted item may collide with a repositioned one.) -/
theorem C2_reorder_full_group_positions_distinct
    (s : KanbanState) (cid : Nat) (S : List Nat)
    (hWF : WF s)
    (hcl : ∃ c ∈ s.checklists, c.id = cid)
    (hS : S.Nodup)
    (hres : ∀ x ∈ S, ∃ it ∈ s.items, it.id = x ∧ it.checklistId = cid)
    (hcover : ∀ it ∈ s.items, it.checklistId = cid → it.id ∈ S) :
    (reorderChecklistItems s cid S true).outcome.isSuccess = true ∧
    ((reorderChecklistItems s cid S true).state.items.filter
        (fun it => it.checklistId == cid)).Pairwise
      (fun a b => a.position ≠ b.position) := by
  obtain ⟨cl, hclmem, hcleq⟩ := hcl
  have hsome : (s.checklists.find? (fun c => c.id == cid)).isSome := by
    rw [List.find?_isSome]
    exact ⟨cl, hclmem, by simp [hcleq]⟩
  obtain ⟨cl0, hfind⟩ := Option.isSome_iff_exists.mp hsome
  have hlen := resolvedItems_length_of_resolve hWF hS hres
  rw [reorder_success_eq hWF hfind hlen]
  refine ⟨rfl, ?_⟩
  have hfm : (applyNewPositions s cid S).filter
      (fun it => it.checklistId == cid) =
      (s.items.filter (fun it => it.checklistId == cid)).map (applyRow cid S) := by
    unfold applyNewPositions
    rw [List.filter_map]
    congr 1
    apply List.filter_congr
    intro a _
    simp [Function.comp, applyRow_checklistId]
  rw [hfm, List.pairwise_map]
  have hnd : (s.items.filter (fun it => it.checklistId == cid)).Pairwise
      (fun a b => a.id ≠ b.id) :=
    (List.pairwise_map.mp hWF.1).sublist (List.filter_sublist _)
  refine List.Pairwise.imp_of_mem ?_ hnd
  intro a b ha hb hne
  obtain ⟨ha0, hacl⟩ := List.mem_filter.mp ha
  obtain ⟨hb0, hbcl⟩ := List.mem_filter.mp hb
  have hacl2 : a.checklistId = cid := by simpa using hacl
  have hbcl2 : b.checklistId = cid := by simpa using hbcl
  have haS : a.id ∈ S := hcover a ha0 hacl2
  have hbS : b.id ∈ S := hcover b hb0 hbcl2
  obtain ⟨⟨ia, hia⟩, hga⟩ := List.mem_iff_get.mp haS
  obtain ⟨⟨ib, hib⟩, hgb⟩ := List.mem_iff_get.mp hbS
  have hpa : (applyRow cid S a).position = ia := by
    rw [applyRow_position_of_mem haS hacl2, newPositionOf, ← hga,
      idToPosition_get hS ia hia]
    rfl
  have hpb : (applyRow cid S b).position = ib := by
    rw [applyRow_position_of_mem hbS hbcl2, newPositionOf, ← hgb,
      idToPosition_get hS ib hib]
    rfl
  intro heq
  rw [hpa, hpb] at heq
  subst heq
  exact hne (by rw [← hga, ← hgb])

/-- Witness for C2 amended: a full three-item reorder leaves all positions
distinct. -/
theorem C2_witness :
    (reorderChecklistItems exState 1 [13, 11, 12] true).outcome.isSuccess = true ∧
    ((reorderChecklistItems exState 1 [13, 11, 12] true).state.items.filter
        (fun it => it.checklistId == 1)).Pairwise
      (fun a b => a.position ≠ b.position) :=
  C2_reorder_full_group_positions_distinct exState 1 [13, 11, 12]
    (by constructor <;> decide)
    ⟨exChecklist, by decide, by decide⟩
    (by decide)
    (by decide)
    (by decide)

theorem reorder_notFound_eq {s : KanbanState} {cid : Nat} {S : List Nat}
    {pOk : Bool}
    (hfind : s.checklists.find? (fun c => c.id == cid) = none) :
    reorderChecklistItems s cid S pOk =
      { state := s,
        outcome := .notFound ("Checklist " ++ toString cid ++ " not found"),
        batch := [] } := by
  simp only [reorderChecklistItems, hfind]

theorem reorder_validation_eq {s : KanbanState} {cid : Nat} {S : List Nat}
    {pOk : Bool} {cl : Checklist}
    (hfind : s.checklists.find? (fun c => c.id == cid) = some cl)
    (hg : (resolvedItems s cid S).length ≠ S.length) :
    reorderChecklistItems s cid S pOk =
      { state := s,
        outcome := .validationError "All items must belong to the specified checklist",
        batch := [] } := by
  simp only [reorderChecklistItems, hfind]
  rw [if_pos hg]

theorem reorder_persistFail_eq {s : KanbanState} {cid : Nat} {S : List Nat}
    {cl : Checklist}
    (hfind : s.checklists.find? (fun c => c.id == cid) = some cl)
    (hg : (resolvedItems s cid S).length = S.length)
    (hne : itemsToUpdate s cid S ≠ []) :
    reorderChecklistItems s cid S false =
      { state := s, outcome := .persistenceFailure,
        batch := itemsToUpdate s cid S } := by
  simp only [reorderChecklistItems, hfind]
  rw [if_neg (fun h => h hg)]
  rw [if_neg (by simpa [List.isEmpty_iff] using hne)]
  rw [if_neg (fun h => Bool.noConfusion h)]

theorem reorder_outcome_of_len_eq {s : KanbanState} {cid : Nat} {S : List Nat}
    {pOk : Bool} {cl : Checklist}
    (hfind : s.checklists.find? (fun c => c.id == cid) = some cl)
    (hg : (resolvedItems s cid S).length = S.length) :
    (reorderChecklistItems s cid S pOk).outcome.isValidationError = false ∧
    ((reorderChecklistItems s cid S pOk).outcome.isSuccess = true ∨
      ((reorderChecklistItems s cid S pOk).outcome = .persistenceFailure ∧
        (reorderChecklistItems s cid S pOk).state = s ∧ pOk = false)) := by
  simp only [reorderChecklistItems, hfind]
  rw [if_neg (fun h => h hg)]
  by_cases he : (itemsToUpdate s cid S).isEmpty = true
  · rw [if_pos he]
    exact ⟨rfl, Or.inl rfl⟩
  · rw [if_neg he]
    cases pOk with
    | true =>
      rw [if_pos rfl]
      exact ⟨rfl, Or.inl rfl⟩
    | false =>
      rw [if_neg (fun h => Bool.noConfusion h)]
      exact ⟨rfl, Or.inr ⟨rfl, rfl, rfl⟩⟩

/-- C3: for an existing checklist G, `Reorder(G, S)` fails with a validation
error exactly when the number of existing items of G whose id occurs in S
differs from the length of S; on such a failure the store is unchanged; and
a list S with a duplicate id always fails this way. -/
theorem C3_reorder_validation_iff_mismatch
    (s : KanbanState) (cid : Nat) (S : List Nat) (pOk : Bool)
    (hWF : WF s)
    (hcl : ∃ c ∈ s.checklists, c.id = cid) :
    ((reorderChecklistItems s cid S pOk).outcome.isValidationError = true ↔
      (s.items.filter
        (fun it => S.contains it.id && it.checklistId == cid)).length ≠ S.length) ∧
    ((reorderChecklistItems s cid S pOk).outcome.isValidationError = true →
      (reorderChecklistItems s cid S pOk).state = s) ∧
    (¬ S.Nodup →
      (reorderChecklistItems s cid S pOk).outcome.isValidationError = true) := by
  obtain ⟨cl, hclmem, hcleq⟩ := hcl
  have hsome : (s.checklists.find? (fun c => c.id == cid)).isSome := by
    rw [List.find?_isSome]
    exact ⟨cl, hclmem, by simp [hcleq]⟩
  obtain ⟨cl0, hfind⟩ := Option.isSome_iff_exists.mp hsome
  have hLL := resolvedItems_length s cid S
  by_cases hg : (resolvedItems s cid S).length = S.length
  · have hout := @reorder_outcome_of_len_eq s cid S pOk _ hfind hg
    refine ⟨⟨?_, ?_⟩, ?_, ?_⟩
    · intro hv
      rw [hout.1] at hv
      exact Bool.noConfusion hv
    · intro hne
      exact absurd (hLL.symm.trans hg) hne
    · intro hv
      rw [hout.1] at hv
      exact Bool.noConfusion hv
    · intro hnd
      exfalso
      apply hnd
      have hidnd : ((s.items.filter
          (fun it => S.contains it.id && it.checklistId == cid)).map
            ChecklistItem.id).Nodup :=
        (hWF.1).sublist ((List.filter_sublist _).map _)
      have hsubS : ((s.items.filter
          (fun it => S.contains it.id && it.checklistId == cid)).map
            ChecklistItem.id) ⊆ S := by
        intro x hx
        obtain ⟨it, hit, rfl⟩ := List.mem_map.mp hx
        have h2 := (List.mem_filter.mp hit).2
        rw [Bool.and_eq_true] at h2
        exact contains_iff.mp h2.1
      have hsp := List.subperm_of_subset hidnd hsubS
      have hlenge : S.length ≤ ((s.items.filter
          (fun it => S.contains it.id && it.checklistId == cid)).map
            ChecklistItem.id).length := by
        rw [List.length_map, ← hLL, hg]
      exact (hsp.perm_of_length_le hlenge).nodup hidnd
  · have hout := @reorder_validation_eq s cid S pOk _ hfind hg
    rw [hout]
    exact ⟨⟨fun _ hc => hg (hLL.trans hc), fun _ => rfl⟩, fun _ => rfl,
      fun _ => rfl⟩

/-- Witness for C3: a duplicated id in S triggers the validation error and
leaves the store unchanged. -/
theorem C3_witness :
    (reorderChecklistItems exState 1 [11, 11] true).outcome.isValidationError
      = true ∧
    (reorderChecklistItems exState 1 [11, 11] true).state = exState := by
  have h := C3_reorder_validation_iff_mismatch exState 1 [11, 11] true
    (by constructor <;> decide)
    ⟨exChecklist, by decide, by decide⟩
  have hv := h.2.2 (by decide)
  exact ⟨hv, h.2.1 hv⟩

/-- C4: a failing reorder leaves the store exactly as it was and surfaces a
structured failure: a missing checklist yields the not-found payload with no
changes, an item-set mismatch yields the validation payload with no changes,
and a failing batch write is rolled back, surfacing the persistence
failure. -/
theorem C4_reorder_failure_frame
    (s : KanbanState) (cid : Nat) (S : List Nat) (pOk : Bool) :
    ((reorderChecklistItems s cid S pOk).outcome.isSuccess = false →
      (reorderChecklistItems s cid S pOk).state = s ∧
      ((∃ m, (reorderChecklistItems s cid S pOk).outcome = .notFound m) ∨
       (∃ m, (reorderChecklistItems s cid S pOk).outcome = .validationError m) ∨
       (reorderChecklistItems s cid S pOk).outcome = .persistenceFailure)) ∧
    (s.checklists.find? (fun c => c.id == cid) = none →
      (∃ m, (reorderChecklistItems s cid S pOk).outcome = .notFound m) ∧
      (reorderChecklistItems s cid S pOk).state = s) ∧
    (∀ cl, s.checklists.find? (fun c => c.id == cid) = some cl →
      (resolvedItems s cid S).length ≠ S.length →
      (∃ m, (reorderChecklistItems s cid S pOk).outcome = .validationError m) ∧
      (reorderChecklistItems s cid S pOk).state = s) ∧
    (∀ cl, s.checklists.find? (fun c => c.id == cid) = some cl →
      (resolvedItems s cid S).length = S.length →
      itemsToUpdate s cid S ≠ [] → pOk = false →
      (reorderChecklistItems s cid S pOk).outcome = .persistenceFailure ∧
      (reorderChecklistItems s cid S pOk).state = s) := by
  cases hfind : s.checklists.find? (fun c => c.id == cid) with
  | none =>
    rw [reorder_notFound_eq hfind]
    exact ⟨fun _ => ⟨rfl, Or.inl ⟨_, rfl⟩⟩, fun _ => ⟨⟨_, rfl⟩, rfl⟩,
      fun cl hcl => Option.noConfusion hcl,
      fun cl hcl => Option.noConfusion hcl⟩
  | some cl0 =>
    by_cases hg : (resolvedItems s cid S).length = S.length
    · have hout := @reorder_outcome_of_len_eq s cid S pOk _ hfind hg
      refine ⟨?_, fun h => Option.noConfusion h,
        fun cl hcl hne => absurd hg hne, ?_⟩
      · intro hfail
        rcases hout.2 with hsucc | ⟨hpf, hst, _⟩
        · rw [hsucc] at hfail
          exact Bool.noConfusion hfail
        · exact ⟨hst, Or.inr (Or.inr hpf)⟩
      · intro cl hcl hlen hne hpf
        subst hpf
        rw [reorder_persistFail_eq hfind hg hne]
        exact ⟨rfl, rfl⟩
    · have hout := @reorder_validation_eq s cid S pOk _ hfind hg
      rw [hout]
      exact ⟨fun _ => ⟨rfl, Or.inr (Or.inl ⟨_, rfl⟩)⟩,
        fun h => Option.noConfusion h,
        fun cl hcl hne => ⟨⟨_, rfl⟩, rfl⟩,
        fun cl hcl hlen hne hpf => absurd hlen hg⟩

/-- Witness for C4: a reorder against a missing checklist reports not-found
with no changes, and a failing batch write rolls back with the persistence
failure surfaced. -/
theorem C4_witness :
    ((reorderChecklistItems emptyState 1 [] false).state = emptyState ∧
      (∃ m, (reorderChecklistItems emptyState 1 [] false).outcome =
        .notFound m)) ∧
    ((reorderChecklistItems pairState 1 [22] false).outcome =
        .persistenceFailure ∧
      (reorderChecklistItems pairState 1 [22] false).state = pairState) := by
  constructor
  · have h := (C4_reorder_failure_frame emptyState 1 [] false).2.1 (by decide)
    exact ⟨h.2, h.1⟩
  · exact (C4_reorder_failure_frame pairState 1 [22] false).2.2.2 exChecklist
      (by decide) (by decide) (by decide) rfl

theorem batch_position {s : KanbanState} {cid : Nat} {S : List Nat}
    {u : ChecklistItem} (hu : u ∈ itemsToUpdate s cid S) :
    u.position = newPositionOf S u.id := by
  obtain ⟨it, _, _, rfl⟩ := mem_itemsToUpdate.mp hu
  rfl

theorem bulkUpdateRow_id (batch : List ChecklistItem) (j : ChecklistItem) :
    (bulkUpdateRow batch j).id = j.id := by
  unfold bulkUpdateRow
  cases batch.find? (fun u => u.id == j.id) <;> rfl

theorem bulkUpdateRow_checklistId (batch : List ChecklistItem)
    (j : ChecklistItem) :
    (bulkUpdateRow batch j).checklistId = j.checklistId := by
  unfold bulkUpdateRow
  cases batch.find? (fun u => u.id == j.id) <;> rfl

theorem bulkUpdateRow_position_of_mem {s : KanbanState} {cid : Nat}
    {S : List Nat} {j : ChecklistItem} (hj : j ∈ s.items)
    (hid : j.id ∈ S) (hcl : j.checklistId = cid) :
    (bulkUpdateRow (itemsToUpdate s cid S) j).position = newPositionOf S j.id := by
  unfold bulkUpdateRow
  cases hfind : (itemsToUpdate s cid S).find? (fun u => u.id == j.id) with
  | some u =>
    have hup := batch_position (List.mem_of_find?_eq_some hfind)
    have huid : u.id = j.id := by simpa using List.find?_some hfind
    simp only []
    rw [hup, huid]
  | none =>
    by_cases hne : j.position = newPositionOf S j.id
    · exact hne
    · exfalso
      have hmem : ({ j with position := newPositionOf S j.id }) ∈
          itemsToUpdate s cid S :=
        mem_itemsToUpdate.mpr ⟨j, mem_resolvedItems.mpr ⟨hj, hid, hcl⟩, hne, rfl⟩
      have := List.find?_eq_none.mp hfind _ hmem
      simp at this

theorem bulkUpdate_nil (l : List ChecklistItem) : bulkUpdate [] l = l := by
  unfold bulkUpdate
  have h : ∀ j ∈ l, bulkUpdateRow [] j = id j := by
    intro j _
    rfl
  rw [List.map_congr_left h, List.map_id]

theorem filter_bulkUpdate (batch : List ChecklistItem)
    (l : List ChecklistItem) (cid : Nat) (S : List Nat) :
    (bulkUpdate batch l).filter
        (fun it => S.contains it.id && it.checklistId == cid) =
      (l.filter (fun it => S.contains it.id && it.checklistId == cid)).map
        (bulkUpdateRow batch) := by
  unfold bulkUpdate
  rw [List.filter_map]
  congr 1
  apply List.filter_congr
  intro a _
  simp [Function.comp, bulkUpdateRow_id, bulkUpdateRow_checklistId]

theorem reorder_success_state {s : KanbanState} {cid : Nat} {S : List Nat}
    {cl : Checklist}
    (hfind : s.checklists.find? (fun c => c.id == cid) = some cl)
    (hg : (resolvedItems s cid S).length = S.length) :
    (reorderChecklistItems s cid S true).state =
      { s with items := bulkUpdate (itemsToUpdate s cid S) s.items } := by
  simp only [reorderChecklistItems, hfind]
  rw [if_neg (fun h => h hg)]
  by_cases he : (itemsToUpdate s cid S).isEmpty = true
  · rw [if_pos he]
    have hnil : itemsToUpdate s cid S = [] := List.isEmpty_iff.mp he
    rw [hnil, bulkUpdate_nil]
  · rw [if_neg he, if_pos trivial]

theorem reorder_success_batch {s : KanbanState} {cid : Nat} {S : List Nat}
    {cl : Checklist}
    (hfind : s.checklists.find? (fun c => c.id == cid) = some cl)
    (hg : (resolvedItems s cid S).length = S.length) :
    (reorderChecklistItems s cid S true).batch = itemsToUpdate s cid S := by
  simp only [reorderChecklistItems, hfind]
  rw [if_neg (fun h => h hg)]
  by_cases he : (itemsToUpdate s cid S).isEmpty = true
  · rw [if_pos he]
  · rw [if_neg he, if_pos trivial]

/-- C6: running `Reorder(G, S)` twice in a row (with the batch write
committing) leaves exactly the state of the first run, and the second run
collects an empty `items_to_update` batch, so it performs no position write
at all. -/
theorem C6_reorder_idempotent (s : KanbanState) (cid : Nat) (S : List Nat) :
    (reorderChecklistItems
        (reorderChecklistItems s cid S true).state cid S true).state =
      (reorderChecklistItems s cid S true).state ∧
    (reorderChecklistItems
        (reorderChecklistItems s cid S true).state cid S true).batch = [] := by
  cases hfind : s.checklists.find? (fun c => c.id == cid) with
  | none =>
    simp [reorder_notFound_eq hfind]
  | some cl0 =>
    by_cases hg : (resolvedItems s cid S).length = S.length
    · have hst := reorder_success_state hfind hg
      rw [hst]
      have hfind2 : ({ s with
          items := bulkUpdate (itemsToUpdate s cid S) s.items } :
            KanbanState).checklists.find? (fun c => c.id == cid) = some cl0 :=
        hfind
      have hlen2 : (resolvedItems { s with
          items := bulkUpdate (itemsToUpdate s cid S) s.items } cid S).length =
          S.length := by
        rw [resolvedItems_length]
        show ((bulkUpdate (itemsToUpdate s cid S) s.items).filter
          (fun it => S.contains it.id && it.checklistId == cid)).length = S.length
        rw [filter_bulkUpdate, List.length_map, ← resolvedItems_length, hg]
      have hb2 : itemsToUpdate { s with
          items := bulkUpdate (itemsToUpdate s cid S) s.items } cid S = [] := by
        apply List.eq_nil_iff_forall_not_mem.mpr
        intro u hu
        obtain ⟨it, hitR, hne, rfl⟩ := mem_itemsToUpdate.mp hu
        obtain ⟨hit2, hid, hcl⟩ := mem_resolvedItems.mp hitR
        obtain ⟨j, hj, rfl⟩ := List.mem_map.mp hit2
        rw [bulkUpdateRow_id] at hid
        rw [bulkUpdateRow_checklistId] at hcl
        apply hne
        rw [bulkUpdateRow_position_of_mem hj hid hcl, bulkUpdateRow_id]
      constructor
      · rw [reorder_success_state hfind2 hlen2, hb2, bulkUpdate_nil]
      · rw [reorder_success_batch hfind2 hlen2, hb2]
    · simp [@reorder_validation_eq s cid S true _ hfind hg]

theorem reorder_empty_batch_eq {s : KanbanState} {cid : Nat} {S : List Nat}
    {pOk : Bool} {cl : Checklist}
    (hfind : s.checklists.find? (fun c => c.id == cid) = some cl)
    (hg : (resolvedItems s cid S).length = S.length)
    (he : (itemsToUpdate s cid S).isEmpty = true) :
    reorderChecklistItems s cid S pOk =
      { state := s,
        outcome := .success (orderByPosition (s.items.filter
          (fun it => it.checklistId == cid))) cl,
        batch := itemsToUpdate s cid S } := by
  simp only [reorderChecklistItems, hfind]
  rw [if_neg (fun h => h hg), if_pos he]

theorem reorder_commit_eq {s : KanbanState} {cid : Nat} {S : List Nat}
    {cl : Checklist}
    (hfind : s.checklists.find? (fun c => c.id == cid) = some cl)
    (hg : (resolvedItems s cid S).length = S.length)
    (he : (itemsToUpdate s cid S).isEmpty = false) :
    reorderChecklistItems s cid S true =
      { state := { s with items := bulkUpdate (itemsToUpdate s cid S) s.items },
        outcome := .success (orderByPosition
          ((bulkUpdate (itemsToUpdate s cid S) s.items).filter
            (fun it => it.checklistId == cid))) cl,
        batch := itemsToUpdate s cid S } := by
  simp only [reorderChecklistItems, hfind]
  rw [if_neg (fun h => h hg)]
  rw [if_neg (fun hcc => by rw [he] at hcc; exact Bool.noConfusion hcc)]
  rw [if_pos trivial]

/-- C7: a successful `Reorder(G, S)` returns the full set of items of G —
a permutation of all rows of the resulting store that belong to G, not only
those listed in S — sorted by non-decreasing stored position, together with
the owning checklist (a stored checklist whose id is the requested one). -/
theorem C7_reorder_success_returns_sorted_group
    (s : KanbanState) (cid : Nat) (S : List Nat) (pOk : Bool)
    (lst : List ChecklistItem) (cl : Checklist)
    (hsucc : (reorderChecklistItems s cid S pOk).outcome = .success lst cl) :
    List.Sorted posLe lst ∧
    List.Perm lst ((reorderChecklistItems s cid S pOk).state.items.filter
      (fun it => it.checklistId == cid)) ∧
    cl ∈ s.checklists ∧ cl.id = cid := by
  cases hfind : s.checklists.find? (fun c => c.id == cid) with
  | none =>
    rw [reorder_notFound_eq hfind] at hsucc
    exact absurd hsucc (by simp)
  | some cl0 =>
    have hclmem : cl0 ∈ s.checklists := List.mem_of_find?_eq_some hfind
    have hclid : cl0.id = cid := by simpa using List.find?_some hfind
    by_cases hg : (resolvedItems s cid S).length = S.length
    · by_cases he : (itemsToUpdate s cid S).isEmpty = true
      · rw [reorder_empty_batch_eq hfind hg he] at hsucc ⊢
        simp only [ReorderOutcome.success.injEq] at hsucc
        obtain ⟨rfl, rfl⟩ := hsucc
        exact ⟨orderByPosition_sorted _, orderByPosition_perm _, hclmem, hclid⟩
      · have he2 : (itemsToUpdate s cid S).isEmpty = false := by
          revert he
          cases (itemsToUpdate s cid S).isEmpty <;> simp
        cases pOk with
        | false =>
          have hne : itemsToUpdate s cid S ≠ [] := by
            intro hnil
            rw [hnil] at he2
            exact Bool.noConfusion he2
          rw [reorder_persistFail_eq hfind hg hne] at hsucc
          exact absurd hsucc (by simp)
        | true =>
          rw [reorder_commit_eq hfind hg he2] at hsucc ⊢
          simp only [ReorderOutcome.success.injEq] at hsucc
          obtain ⟨rfl, rfl⟩ := hsucc
          exact ⟨orderByPosition_sorted _, orderByPosition_perm _, hclmem, hclid⟩
    · rw [@reorder_validation_eq s cid S pOk _ hfind hg] at hsucc
      exact absurd hsucc (by simp)

/-- Witness for C7: the concrete reversed three-item reorder returns all
three items sorted by their new positions, plus the owning checklist. -/
theorem C7_witness :
    List.Sorted posLe
      [ { id := 13, checklistId := 1, text := "c", position := 0,
          completed := false }
      , { id := 11, checklistId := 1, text := "a", position := 1,
          completed := false }
      , { id := 12, checklistId := 1, text := "b", position := 2,
          completed := false } ] ∧
    List.Perm
      [ { id := 13, checklistId := 1, text := "c", position := 0,
          completed := false }
      , { id := 11, checklistId := 1, text := "a", position := 1,
          completed := false }
      , { id := 12, checklistId := 1, text := "b", position := 2,
          completed := false } ]
      ((reorderChecklistItems exState 1 [13, 11, 12] true).state.items.filter
        (fun it => it.checklistId == 1)) ∧
    exChecklist ∈ exState.checklists ∧ exChecklist.id = 1 :=
  C7_reorder_success_returns_sorted_group exState 1 [13, 11, 12] true
    _ exChecklist (by decide)

/-- C8: reordering an existing checklist with the empty id list succeeds,
changes nothing, and returns all items of the checklist sorted by stored
position. -/
theorem C8_reorder_empty_list_noop
    (s : KanbanState) (cid : Nat) (pOk : Bool)
    (hcl : ∃ c ∈ s.checklists, c.id = cid) :
    (reorderChecklistItems s cid [] pOk).state = s ∧
    (∃ cl lst, (reorderChecklistItems s cid [] pOk).outcome = .success lst cl ∧
      List.Sorted posLe lst ∧
      List.Perm lst (s.items.filter (fun it => it.checklistId == cid))) := by
  obtain ⟨cl, hclmem, hcleq⟩ := hcl
  have hsome : (s.checklists.find? (fun c => c.id == cid)).isSome := by
    rw [List.find?_isSome]
    exact ⟨cl, hclmem, by simp [hcleq]⟩
  obtain ⟨cl0, hfind⟩ := Option.isSome_iff_exists.mp hsome
  have h0 : (s.items.filter
      (fun it => List.contains [] it.id && it.checklistId == cid)) = [] := by
    apply List.filter_eq_nil_iff.mpr
    intro a _
    simp
  have hres : resolvedItems s cid [] = [] := by
    unfold resolvedItems
    rw [h0]
    rfl
  have hg : (resolvedItems s cid []).length = ([] : List Nat).length := by
    rw [hres]
    rfl
  have hemp : (itemsToUpdate s cid []).isEmpty = true := by
    unfold itemsToUpdate
    rw [hres]
    rfl
  rw [reorder_empty_batch_eq hfind hg hemp]
  exact ⟨rfl, cl0, _, rfl, orderByPosition_sorted _, orderByPosition_perm _⟩

/-- Witness for C8: the empty reorder on the concrete three-item checklist
keeps the store intact and still reports success. -/
theorem C8_witness :
    (reorderChecklistItems exState 1 [] true).state = exState ∧
    (∃ cl lst, (reorderChecklistItems exState 1 [] true).outcome =
        .success lst cl ∧
      List.Sorted posLe lst ∧
      List.Perm lst (exState.items.filter (fun it => it.checklistId == 1))) :=
  C8_reorder_empty_list_noop exState 1 true ⟨exChecklist, by decide, by decide⟩

/-- C9: toggling an existing checklist item negates its `completed` flag and
changes nothing else: the returned item and the stored row keep their id,
text, position and parent checklist, the other tables are untouched, and
every other item row is untouched. -/
theorem C9_toggle_negates_completed
    (s : KanbanState) (itemId : Nat) (it : ChecklistItem)
    (hfind : s.items.find? (fun j => j.id == itemId) = some it) :
    (toggleChecklistItem s itemId).item =
      some { it with completed := !it.completed } ∧
    (toggleChecklistItem s itemId).state.tasks = s.tasks ∧
    (toggleChecklistItem s itemId).state.checklists = s.checklists ∧
    (toggleChecklistItem s itemId).state.items.length = s.items.length ∧
    (∀ (k : Nat) (j : ChecklistItem), s.items[k]? = some j → j.id ≠ itemId →
      ((toggleChecklistItem s itemId).state.items)[k]? = some j) ∧
    (∀ (k : Nat) (j : ChecklistItem), s.items[k]? = some j → j.id = itemId →
      ((toggleChecklistItem s itemId).state.items)[k]? =
        some { j with completed := !it.completed }) := by
  simp only [toggleChecklistItem, hfind]
  refine ⟨by trivial, by trivial, by trivial, by simp, ?_, ?_⟩
  · intro k j hj hne
    rw [List.getElem?_map, hj]
    simp [hne]
  · intro k j hj heq
    rw [List.getElem?_map, hj]
    simp [heq]

/-- Witness for C9: toggling the first item of the concrete checklist flips
its flag to true and keeps the rest of its fields. -/
theorem C9_witness :
    (toggleChecklistItem exState 11).item =
      some ⟨11, 1, "a", 0, true⟩ ∧
    (toggleChecklistItem exState 11).state.items.length =
      exState.items.length := by
  have h := C9_toggle_negates_completed exState 11 ⟨11, 1, "a", 0, false⟩
    (by decide)
  exact ⟨h.1, h.2.2.2.1⟩

/-- C10: a title (for `CreateTask`) or text (for `AddChecklistItem`, on an
existing checklist) that strips to the empty string is rejected with the
documented error and no record is created; an accepted input is stored with
its surrounding whitespace stripped, the new record being appended. -/
theorem C10_blank_rejected_and_stripped_stored
    (s : KanbanState) (newId : Nat) (title text : String)
    (status : Option TaskStatus) (category : Option String)
    (priority : Option TaskPriority) (order : Option Nat)
    (cid : Nat) (position : Option Nat) :
    (pyStrip title = "" →
      createTask s newId title status category priority order =
        { state := s, task := none, errors := ["Title cannot be empty"] }) ∧
    (pyStrip title ≠ "" →
      ∃ t, (createTask s newId title status category priority order).task =
          some t ∧
        t.title = pyStrip title ∧
        (createTask s newId title status category priority order).state.tasks =
          s.tasks ++ [t] ∧
        (createTask s newId title status category priority order).errors = []) ∧
    ((∃ c ∈ s.checklists, c.id = cid) → pyStrip text = "" →
      addChecklistItem s newId cid text position =
        { state := s, item := none, errors := ["Item text cannot be empty"] }) ∧
    ((∃ c ∈ s.checklists, c.id = cid) → pyStrip text ≠ "" →
      ∃ x, (addChecklistItem s newId cid text position).item = some x ∧
        x.text = pyStrip text ∧
        (addChecklistItem s newId cid text position).state.items =
          s.items ++ [x] ∧
        (addChecklistItem s newId cid text position).errors = []) := by
  refine ⟨?_, ?_, ?_, ?_⟩
  · intro h
    simp only [createTask]
    rw [if_pos h]
  · intro h
    simp only [createTask]
    rw [if_neg h]
    exact ⟨_, rfl, rfl, rfl, rfl⟩
  · rintro ⟨c, hc, hcid⟩ h
    have hsome : (s.checklists.find? (fun c => c.id == cid)).isSome := by
      rw [List.find?_isSome]
      exact ⟨c, hc, by simp [hcid]⟩
    obtain ⟨c0, hfind⟩ := Option.isSome_iff_exists.mp hsome
    simp only [addChecklistItem, hfind]
    rw [if_pos h]
  · rintro ⟨c, hc, hcid⟩ h
    have hsome : (s.checklists.find? (fun c => c.id == cid)).isSome := by
      rw [List.find?_isSome]
      exact ⟨c, hc, by simp [hcid]⟩
    obtain ⟨c0, hfind⟩ := Option.isSome_iff_exists.mp hsome
    simp only [addChecklistItem, hfind]
    rw [if_neg h]
    exact ⟨_, rfl, rfl, rfl, rfl⟩

/-- Witness for C10: a whitespace title is rejected with no record, and a
padded item text is stored stripped. -/
theorem C10_witness :
    (createTask emptyState 1 " " none none none none =
      { state := emptyState, task := none,
        errors := ["Title cannot be empty"] }) ∧
    (∃ x, (addChecklistItem exState 99 1 " x " none).item = some x ∧
      x.text = pyStrip " x " ∧
      (addChecklistItem exState 99 1 " x " none).state.items =
        exState.items ++ [x] ∧
      (addChecklistItem exState 99 1 " x " none).errors = []) := by
  have h := C10_blank_rejected_and_stripped_stored emptyState 1 " " " x "
    none none none none 1 none
  have h2 := C10_blank_rejected_and_stripped_stored exState 99 " " " x "
    none none none none 1 none
  exact ⟨h.1 (by decide),
    h2.2.2.2 ⟨exChecklist, by decide, by decide⟩ (by decide)⟩

/-- Counterexample to C5 as stated: a checklist whose only item sits at
position 0 (so `max = 0`) receives position 0 for the next item, not
`max + 1 = 1` (Python `(max_position or -1) + 1` treats the max `0` as
falsy); and an empty task bucket yields order 1, not 0
(`(max_order or 0) + 1`). -/
theorem C5_counterexample :
    (addChecklistItem singleZeroState 32 1 "b" none).item.map
      ChecklistItem.position = some 0 ∧
    (addChecklistItem singleZeroState 32 1 "b" none).item.map
      ChecklistItem.position ≠ some (0 + 1) ∧
    (createTask emptyState 1 "t" none none none none).task.map
      Task.order = some 1 ∧
    (createTask emptyState 1 "t" none none none none).task.map
      Task.order ≠ some 0 :=
  ⟨by decide, by decide, by decide, by decide⟩

/-- C5 amended: creating without an explicit position behaves as follows.
For a checklist item: an empty checklist yields position 0; a checklist with
maximum stored position `m > 0` yields `m + 1`; a non-empty checklist whose
positions are all 0 yields 0 again (Python `or` treats the max 0 as falsy).
For a task: an empty (status, priority) bucket yields order 1; a non-empty
bucket with maximum stored order `m` yields `m + 1`.  In particular a
checklist with positions \x7b0,1,2\x7d yields 3. -/
theorem C5_auto_position_amended
    (s : KanbanState) (newId : Nat) (cid : Nat) (text title : String)
    (status : Option TaskStatus) (priority : Option TaskPriority)
    (category : Option String)
    (hcl : ∃ c ∈ s.checklists, c.id = cid)
    (htext : pyStrip text ≠ "") (htitle : pyStrip title ≠ "") :
    ((s.items.filter (fun it => it.checklistId == cid)) = [] →
      (addChecklistItem s newId cid text none).item.map
        ChecklistItem.position = some 0) ∧
    (∀ m, m ∈ (s.items.filter (fun it => it.checklistId == cid)).map
        ChecklistItem.position →
      (∀ q ∈ (s.items.filter (fun it => it.checklistId == cid)).map
        ChecklistItem.position, q ≤ m) →
      0 < m →
      (addChecklistItem s newId cid text none).item.map
        ChecklistItem.position = some (m + 1)) ∧
    ((s.items.filter (fun it => it.checklistId == cid)) ≠ [] →
      (∀ q ∈ (s.items.filter (fun it => it.checklistId == cid)).map
        ChecklistItem.position, q = 0) →
      (addChecklistItem s newId cid text none).item.map
        ChecklistItem.position = some 0) ∧
    ((s.tasks.filter (fun t => decide (t.status = status.getD TaskStatus.TODO ∧
        t.priority = priority.getD TaskPriority.P4))) = [] →
      (createTask s newId title status category priority none).task.map
        Task.order = some 1) ∧
    (∀ m, m ∈ (s.tasks.filter
        (fun t => decide (t.status = status.getD TaskStatus.TODO ∧
          t.priority = priority.getD TaskPriority.P4))).map Task.order →
      (∀ q ∈ (s.tasks.filter
        (fun t => decide (t.status = status.getD TaskStatus.TODO ∧
          t.priority = priority.getD TaskPriority.P4))).map Task.order, q ≤ m) →
      (createTask s newId title status category priority none).task.map
        Task.order = some (m + 1)) := by
  obtain ⟨c, hc, hcid⟩ := hcl
  have hsome : (s.checklists.find? (fun c => c.id == cid)).isSome := by
    rw [List.find?_isSome]
    exact ⟨c, hc, by simp [hcid]⟩
  obtain ⟨c0, hfind⟩ := Option.isSome_iff_exists.mp hsome
  refine ⟨?_, ?_, ?_, ?_, ?_⟩
  · intro hnil
    simp only [addChecklistItem, hfind]
    rw [if_neg htext]
    simp only [hnil]
    rfl
  · intro m hm hb hpos
    simp only [addChecklistItem, hfind]
    rw [if_neg htext]
    simp only [maxAgg_eq_of_isMax hm hb]
    cases m with
    | zero => exact absurd hpos (Nat.lt_irrefl 0)
    | succ k => rfl
  · intro hne hall
    obtain ⟨a, ha⟩ := List.exists_mem_of_ne_nil _ hne
    have h0 : (0 : Nat) ∈ (s.items.filter
        (fun it => it.checklistId == cid)).map ChecklistItem.position := by
      have : a.position ∈ (s.items.filter
          (fun it => it.checklistId == cid)).map ChecklistItem.position :=
        List.mem_map_of_mem _ ha
      rwa [hall a.position this] at this
    have hb : ∀ q ∈ (s.items.filter
        (fun it => it.checklistId == cid)).map ChecklistItem.position,
        q ≤ 0 := by
      intro q hq
      rw [hall q hq]
    simp only [addChecklistItem, hfind]
    rw [if_neg htext]
    simp only [maxAgg_eq_of_isMax h0 hb]
    rfl
  · intro hnil
    simp only [createTask]
    rw [if_neg htitle]
    simp only [hnil]
    rfl
  · intro m hm hb
    simp only [createTask]
    rw [if_neg htitle]
    simp only [maxAgg_eq_of_isMax hm hb]
    cases m with
    | zero => rfl
    | succ k => rfl

/-- Witness for C5 amended: a checklist with positions 0, 1, 2 yields 3 for
the next item, and an empty bucket yields order 1 for the first task. -/
theorem C5_witness :
    (addChecklistItem exState 14 1 " d " none).item.map
      ChecklistItem.position = some 3 ∧
    (createTask exState 1 "t" none none none none).task.map
      Task.order = some 1 := by
  have h := C5_auto_position_amended exState 14 1 " d " "t" none none none
    ⟨exChecklist, by decide, by decide⟩ (by decide) (by decide)
  refine ⟨h.2.1 2 (by decide) (by decide) (by decide), ?_⟩
  exact (C5_auto_position_amended exState 1 1 "x" "t" none none none
    ⟨exChecklist, by decide, by decide⟩ (by decide) (by decide)).2.2.2.1
    (by decide)

end Kanban
